import Mathlib

/-!
Formal verification of the tinfoil-go attested transport subsystem.

The Go source is shallowly embedded: pure helpers become Lean functions,
stateful methods become explicit state-passing functions, network and
cryptographic collaborators (the verifier library, GitHub/Sigstore fetches,
the HTTP stack) are passed in as explicit oracle arguments, and Go `uint64`
arithmetic is carried out on `Nat` with explicit reduction modulo `2 ^ 64`.
Fallible Go code (functions returning `error`) is embedded with
`Option`/`Except`; a Go runtime panic is embedded as `none`.
-/

namespace Tinfoil

/-- Go `byte` slices are modelled as lists of naturals. -/
abbrev Bytes := List Nat

/-- Element-wise comparison loop of `equalBytes` (ffi.go): walks both slices
in lockstep and fails on the first differing byte. -/
def equalBytesLoop : Bytes → Bytes → Bool
  | [], [] => true
  | x :: xs, y :: ys => if x ≠ y then false else equalBytesLoop xs ys
  | _, _ => false

/-- `equalBytes` (ffi.go): returns false when the lengths differ, otherwise
compares the slices byte for byte. -/
def equalBytes (a b : Bytes) : Bool :=
  if a.length ≠ b.length then false else equalBytesLoop a b

theorem equalBytesLoop_eq_true_iff (a b : Bytes) : equalBytesLoop a b = true ↔ a = b := by
  induction a generalizing b with
  | nil => cases b <;> simp [equalBytesLoop]
  | cons x xs ih =>
    cases b with
    | nil => simp [equalBytesLoop]
    | cons y ys =>
      by_cases hxy : x = y <;> simp [equalBytesLoop, hxy, ih]

theorem equalBytes_eq_true_iff (a b : Bytes) : equalBytes a b = true ↔ a = b := by
  unfold equalBytes
  by_cases h : a.length = b.length
  · simp [h, equalBytesLoop_eq_true_iff]
  · have hne : a ≠ b := fun hab => h (congrArg List.length hab)
    simp [h, hne]

/-- The `VerifyPeerCertificate` callback installed by `createOpenAIClient`
(src/unnamed/part_007, lines 66-80): rejects an empty presented chain,
otherwise computes the SHA-256 digest of the first raw certificate and
compares it against the expected fingerprint captured from the ground truth.
The SHA-256 function itself is an external collaborator and is passed in as
an oracle. Returns `none` for acceptance (Go `nil` error). -/
def verifyPeerCertificate (sha256Sum : Bytes → Bytes) (expectedFingerprint : Bytes)
    (rawCerts : List Bytes) (verifiedChains : List (List Bytes)) : Option String :=
  match rawCerts with
  | [] => some "no certificate found"
  | cert0 :: _ =>
    let certFingerprint := sha256Sum cert0
    if ¬ equalBytes certFingerprint expectedFingerprint then
      some "certificate fingerprint mismatch"
    else
      none

/-- The fields of Go `tls.Config` relevant to peer verification. -/
structure TLSConfig where
  insecureSkipVerify : Bool
  verifyPeerCertificate : List Bytes → List (List Bytes) → Option String

/-- Model of the documented Go crypto/tls client-side peer-certificate
verification: when `InsecureSkipVerify` is false, ordinary CA-chain
validation runs first and the handshake aborts before the
`VerifyPeerCertificate` callback is consulted if that validation fails; the
callback only runs after ordinary validation passes (or when it is skipped).
`chainValid` abstracts the outcome of ordinary CA-chain validation of the
presented certificates. Returns `none` for an accepted connection. -/
def tlsPeerVerification (cfg : TLSConfig) (chainValid : Bool)
    (rawCerts : List Bytes) (verifiedChains : List (List Bytes)) : Option String :=
  if cfg.insecureSkipVerify = false ∧ chainValid = false then
    some "tls: failed to verify certificate"
  else
    cfg.verifyPeerCertificate rawCerts verifiedChains

/-- The `tls.Config` literal built by `createOpenAIClient`
(src/unnamed/part_007, lines 64-82): only `VerifyPeerCertificate` is set;
`InsecureSkipVerify` keeps its Go zero value `false`. -/
def createOpenAIClientTLSConfig (sha256Sum : Bytes → Bytes) (certFingerprint : Bytes) :
    TLSConfig :=
  { insecureSkipVerify := false
    verifyPeerCertificate := verifyPeerCertificate sha256Sum certFingerprint }

/-- C1 (amended): the peer-certificate callback installed by
`createOpenAIClient` returns no error exactly when the presented chain is
non-empty and the SHA-256 digest of its first certificate equals the expected
fingerprint byte-for-byte; the callback itself never examines the verified CA
chains; an empty chain is rejected with a no-certificate-found error and a
digest mismatch with a certificate-fingerprint-mismatch error. However,
because `InsecureSkipVerify` is left at its zero value `false`, ordinary
CA-chain validation is NOT bypassed: the connection as a whole is accepted
exactly when the CA chain also validates and the digest matches. -/
theorem C1_pinned_check (sha256Sum : Bytes → Bytes) (fp : Bytes)
    (rawCerts : List Bytes) (chains chains2 : List (List Bytes)) (chainValid : Bool) :
    (verifyPeerCertificate sha256Sum fp rawCerts chains = none ↔
        rawCerts ≠ [] ∧ sha256Sum (rawCerts.headD []) = fp)
    ∧ verifyPeerCertificate sha256Sum fp rawCerts chains
        = verifyPeerCertificate sha256Sum fp rawCerts chains2
    ∧ (rawCerts = [] →
        verifyPeerCertificate sha256Sum fp rawCerts chains = some "no certificate found")
    ∧ (rawCerts ≠ [] → sha256Sum (rawCerts.headD []) ≠ fp →
        verifyPeerCertificate sha256Sum fp rawCerts chains
          = some "certificate fingerprint mismatch")
    ∧ (tlsPeerVerification (createOpenAIClientTLSConfig sha256Sum fp) chainValid rawCerts chains
          = none ↔
        chainValid = true ∧ rawCerts ≠ [] ∧ sha256Sum (rawCerts.headD []) = fp) := by
  cases rawCerts with
  | nil =>
    cases chainValid <;>
      simp [verifyPeerCertificate, tlsPeerVerification, createOpenAIClientTLSConfig]
  | cons c cs =>
    by_cases heq : equalBytes (sha256Sum c) fp = true
    · have hfp : sha256Sum c = fp := (equalBytes_eq_true_iff _ _).mp heq
      cases chainValid <;>
        simp [verifyPeerCertificate, tlsPeerVerification, createOpenAIClientTLSConfig,
          equalBytes_eq_true_iff, heq, hfp]
    · have hfp : sha256Sum c ≠ fp := fun h => heq ((equalBytes_eq_true_iff _ _).mpr h)
      cases chainValid <;>
        simp [verifyPeerCertificate, tlsPeerVerification, createOpenAIClientTLSConfig,
          heq, hfp]

theorem C1_pinned_check_witness :
    verifyPeerCertificate (fun _ => [7]) [7] [[0]] [] = none
    ∧ verifyPeerCertificate (fun _ => [8]) [7] [[0]] []
        = some "certificate fingerprint mismatch"
    ∧ verifyPeerCertificate (fun _ => [7]) [7] [] [] = some "no certificate found"
    ∧ tlsPeerVerification (createOpenAIClientTLSConfig (fun _ => [7]) [7]) true [[0]] []
        = none := by
  refine ⟨?_, ?_, ?_, ?_⟩
  · exact (C1_pinned_check (fun _ => [7]) [7] [[0]] [] [] true).1.mpr ⟨by decide, rfl⟩
  · exact (C1_pinned_check (fun _ => [8]) [7] [[0]] [] [] true).2.2.2.1 (by decide) (by decide)
  · exact (C1_pinned_check (fun _ => [7]) [7] [] [] [] true).2.2.1 rfl
  · exact (C1_pinned_check (fun _ => [7]) [7] [[0]] [] [] true).2.2.2.2.mpr
      ⟨rfl, by decide, rfl⟩

/-- C1 counterexample: under a digest oracle for which the presented leaf
certificate matches the expected fingerprint, the connection is nevertheless
rejected when the presented chain does not validate against the CA roots
(the claim asserts acceptance does not depend on CA-chain validation, i.e.
that ordinary validation is bypassed); moreover an empty chain is rejected
with a no-certificate-found error, not the certificate-mismatch error. -/
theorem C1_counterexample :
    tlsPeerVerification (createOpenAIClientTLSConfig (fun _ => [1]) [1]) false [[0]] []
        = some "tls: failed to verify certificate"
    ∧ (fun (_ : Bytes) => ([1] : Bytes)) [0] = [1]
    ∧ ([[0]] : List Bytes) ≠ []
    ∧ verifyPeerCertificate (fun _ => [1]) [1] [] [] = some "no certificate found"
    ∧ "no certificate found" ≠ "certificate fingerprint mismatch" := by
  exact ⟨rfl, rfl, by decide, rfl, by decide⟩

/-- Go `url.URL`, restricted to the fields the repository touches. -/
structure URL where
  scheme : String
  host : String
  path : String
deriving DecidableEq, Inhabited

/-- Go `http.Request`, restricted to the fields the repository touches. -/
structure Request where
  method : String
  url : URL
  headers : List (String × String)
  body : List Nat
deriving DecidableEq, Inhabited

/-- Go `http.Response`: status line, status code, and a body whose read
(`io.ReadAll`) may itself fail. -/
structure HTTPRawResponse where
  status : String
  statusCode : Nat
  readBody : Except String (List Nat)

/-- The `Response` struct of src/unnamed/part_001. -/
structure Response where
  status : String
  statusCode : Nat
  body : List Nat
deriving DecidableEq, Inhabited

/-- `toResponse` (src/unnamed/part_001, lines 39-49): reads the body and
copies status line, status code and body into a `Response`. -/
def toResponse (r : HTTPRawResponse) : Except String Response :=
  match r.readBody with
  | .error e => .error e
  | .ok b => .ok { status := r.status, statusCode := r.statusCode, body := b }

/-- The Go error values and error types distinguished by
`isCertificateError` (tinfoil_client.go lines 110-122): the verifier
library's sentinel errors `client.ErrNoTLS` and `client.ErrCertMismatch`,
the `x509` error types `CertificateInvalidError`, `UnknownAuthorityError`
and `HostnameError`, `tls.CertificateVerificationError`, any other error
(`other`), and `fmt.Errorf`-style wrapping traversed by
`errors.Is`/`errors.As` (`wrap`). -/
inductive GoError where
  | errNoTLS : GoError
  | errCertMismatch : GoError
  | certificateInvalid : GoError
  | unknownAuthority : GoError
  | hostnameMismatch : GoError
  | certificateVerification : GoError
  | other : String → GoError
  | wrap : String → GoError → GoError
deriving DecidableEq

/-- `isCertificateError` (tinfoil_client.go lines 110-122): true exactly for
the six certificate/trust error shapes, looking through error wrapping as
`errors.Is`/`errors.As` do. -/
def isCertificateError : GoError → Bool
  | .errNoTLS => true
  | .errCertMismatch => true
  | .certificateInvalid => true
  | .unknownAuthority => true
  | .hostnameMismatch => true
  | .certificateVerification => true
  | .other _ => false
  | .wrap _ inner => isCertificateError inner

/-- An `http.RoundTripper`: a request either yields a response or an error. -/
abbrev Transport := Request → Except GoError HTTPRawResponse

/-- The observable identity of a `client.SecureClient` from the external
verifier library: its `Enclave()` and `Repo()` accessors. -/
structure VerifierClient where
  enclave : String
  repo : String

/-- The result of a successful `NewSecureClient(enclave, repo).HTTPClient()`
round trip: the fresh secure client and the transport of the HTTP client it
returned. -/
structure FreshHTTPClient where
  secureClient : VerifierClient
  transport : Transport

/-- The mutable state of `reVerifyingTransport` (tinfoil_client.go lines
75-79): the wrapped secure client and the currently active transport. -/
structure ReVerifyingTransport where
  secureClient : VerifierClient
  transport : Transport

/-- `reVerifyingTransport.RoundTrip` (tinfoil_client.go lines 81-108).
`reVerify enclave repo` is the oracle modelling
`client.NewSecureClient(enclave, repo).HTTPClient()` — the external
verifier-library re-verification. Returns the response-or-error together
with the transport state after the call. -/
def ReVerifyingTransport.RoundTrip
    (reVerify : String → String → Except GoError FreshHTTPClient)
    (t : ReVerifyingTransport) (req : Request) :
    Except GoError HTTPRawResponse × ReVerifyingTransport :=
  match t.transport req with
  | .ok resp => (.ok resp, t)
  | .error err =>
    if ¬ isCertificateError err then
      (.error err, t)
    else
      match reVerify t.secureClient.enclave t.secureClient.repo with
      | .error _ => (.error err, t)
      | .ok fresh =>
        (fresh.transport req,
          { secureClient := fresh.secureClient, transport := fresh.transport })

/-- C2: when the first attempt fails with a certificate/trust error and the
triggered re-verification itself fails, `RoundTrip` returns the original
certificate error from the first attempt (not the re-verification error),
does not retry the request, and leaves the active transport unchanged. -/
theorem C2_reverify_failure_fails_closed
    (reVerify : String → String → Except GoError FreshHTTPClient)
    (t : ReVerifyingTransport) (req : Request) (err verr : GoError)
    (hfirst : t.transport req = .error err)
    (hcert : isCertificateError err = true)
    (hrv : reVerify t.secureClient.enclave t.secureClient.repo = .error verr) :
    ReVerifyingTransport.RoundTrip reVerify t req = (.error err, t) := by
  simp [ReVerifyingTransport.RoundTrip, hfirst, hcert, hrv]

/-- Shared concrete request used by the transport witnesses. -/
def rvReq : Request :=
  { method := "GET"
    url := { scheme := "https", host := "inference.tinfoil.sh", path := "/v1/models" }
    headers := []
    body := [] }

/-- A transport whose round trip fails with the pinning mismatch signal. -/
def rvFailingTransport : Transport := fun _ => .error .errCertMismatch

/-- A concrete `reVerifyingTransport` state built over the failing
transport. -/
def rvState : ReVerifyingTransport :=
  { secureClient :=
      { enclave := "inference.tinfoil.sh", repo := "tinfoilsh/confidential-inference-proxy" }
    transport := rvFailingTransport }

theorem C2_reverify_failure_fails_closed_witness :
    ReVerifyingTransport.RoundTrip (fun _ _ => .error (.other "attestation fetch timed out"))
        rvState rvReq
      = (.error .errCertMismatch, rvState)
    ∧ GoError.errCertMismatch ≠ .other "attestation fetch timed out" := by
  refine ⟨?_, by decide⟩
  exact C2_reverify_failure_fails_closed
    (fun _ _ => .error (.other "attestation fetch timed out")) rvState rvReq
    .errCertMismatch (.other "attestation fetch timed out") rfl rfl rfl

/-- C3: when the first attempt fails with a certificate/trust error and the
triggered re-verification succeeds, `RoundTrip` installs the freshly pinned
transport (and the fresh secure client) as the active state and returns the
outcome of exactly one retry of the original request through the new
transport, as-is. -/
theorem C3_reverify_success_retries_once
    (reVerify : String → String → Except GoError FreshHTTPClient)
    (t : ReVerifyingTransport) (req : Request) (err : GoError) (fresh : FreshHTTPClient)
    (hfirst : t.transport req = .error err)
    (hcert : isCertificateError err = true)
    (hrv : reVerify t.secureClient.enclave t.secureClient.repo = .ok fresh) :
    ReVerifyingTransport.RoundTrip reVerify t req
      = (fresh.transport req,
          { secureClient := fresh.secureClient, transport := fresh.transport }) := by
  simp [ReVerifyingTransport.RoundTrip, hfirst, hcert, hrv]

/-- A concrete successful response for the transport witnesses. -/
def rvOkResponse : HTTPRawResponse :=
  { status := "200 OK", statusCode := 200, readBody := .ok [] }

/-- A fresh verified client whose transport succeeds. -/
def rvFresh : FreshHTTPClient :=
  { secureClient :=
      { enclave := "inference.tinfoil.sh", repo := "tinfoilsh/confidential-inference-proxy" }
    transport := fun _ => .ok rvOkResponse }

theorem C3_reverify_success_retries_once_witness :
    ReVerifyingTransport.RoundTrip (fun _ _ => .ok rvFresh) rvState rvReq
      = (rvFresh.transport rvReq,
          { secureClient := rvFresh.secureClient, transport := rvFresh.transport }) := by
  exact C3_reverify_success_retries_once (fun _ _ => .ok rvFresh) rvState rvReq
    .errCertMismatch rvFresh rfl rfl rfl

/-- C4: when the first attempt succeeds, or fails with an error that
`isCertificateError` does not classify as a certificate/trust error,
`RoundTrip` returns that first outcome unchanged and the active transport
state is untouched — no re-verification, no retry. -/
theorem C4_non_certificate_outcome_passthrough
    (reVerify : String → String → Except GoError FreshHTTPClient)
    (t : ReVerifyingTransport) (req : Request)
    (h : (∃ resp, t.transport req = .ok resp)
        ∨ (∃ err, t.transport req = .error err ∧ isCertificateError err = false)) :
    ReVerifyingTransport.RoundTrip reVerify t req = (t.transport req, t) := by
  rcases h with ⟨resp, hok⟩ | ⟨err, herr, hcls⟩
  · simp [ReVerifyingTransport.RoundTrip, hok]
  · simp [ReVerifyingTransport.RoundTrip, herr, hcls]

/-- A concrete `reVerifyingTransport` state whose transport succeeds. -/
def rvOkState : ReVerifyingTransport :=
  { secureClient :=
      { enclave := "inference.tinfoil.sh", repo := "tinfoilsh/confidential-inference-proxy" }
    transport := fun _ => .ok rvOkResponse }

/-- A concrete state whose transport fails with an ordinary network error. -/
def rvDNSState : ReVerifyingTransport :=
  { secureClient :=
      { enclave := "inference.tinfoil.sh", repo := "tinfoilsh/confidential-inference-proxy" }
    transport := fun _ => .error (.other "dial tcp: lookup failed") }

theorem C4_non_certificate_outcome_passthrough_witness :
    ReVerifyingTransport.RoundTrip (fun _ _ => .ok rvFresh) rvOkState rvReq
      = (rvOkState.transport rvReq, rvOkState)
    ∧ ReVerifyingTransport.RoundTrip (fun _ _ => .ok rvFresh) rvDNSState rvReq
      = (rvDNSState.transport rvReq, rvDNSState) := by
  constructor
  · exact C4_non_certificate_outcome_passthrough (fun _ _ => .ok rvFresh) rvOkState rvReq
      (Or.inl ⟨rvOkResponse, rfl⟩)
  · exact C4_non_certificate_outcome_passthrough (fun _ _ => .ok rvFresh) rvDNSState rvReq
      (Or.inr ⟨.other "dial tcp: lookup failed", rfl, rfl⟩)

/-- `GroundTruth` (client.go lines 14-18): the verified state of the
enclave. -/
structure GroundTruth where
  publicKeyFP : String
  digest : String
  measurement : String
deriving DecidableEq, Inhabited

/-- `SecureClient` (client.go lines 21-24): enclave and repo identity plus
the cached ground truth (`nil` when not yet verified). -/
structure SecureClient where
  enclave : String
  repo : String
  groundTruth : Option GroundTruth
deriving DecidableEq, Inhabited

/-- The result of `enclaveAttestation.Verify()` in the verifier library:
the fields read by client.go. -/
structure Verification where
  publicKeyFP : String
  measurement : String
deriving DecidableEq, Inhabited

/-- The external collaborators called by `SecureClient.Verify` (client.go
lines 45-84): the GitHub, Sigstore and attestation operations of the
verifier library, each returning a value or an error. `measurementsEquals`
models `codeMeasurements.Equals(m)` (an error, or `nil` for equal) and
`measurementsFingerprint` models `codeMeasurements.Fingerprint()`. -/
structure Oracle where
  fetchLatestDigest : String → Except String String
  fetchAttestationBundle : String → String → Except String String
  fetchTrustRoot : Except String String
  verifyAttestation : String → String → String → String → Except String String
  attestationFetch : String → Except String String
  attestationVerify : String → Except String Verification
  measurementsEquals : String → String → Option String
  measurementsFingerprint : String → String

/-- `SecureClient.Verify` (client.go lines 45-84): runs the staged
verification against the oracle; on any stage failure it returns the stage
error with the stage-naming message prefix and leaves the client unchanged;
when the measurement comparison succeeds it constructs a new `GroundTruth`,
stores it in the client and returns it. As in the Go source, the returned
value is `s.groundTruth` at return time: the old cached value (with the
error) when the final comparison fails, the new one on success. -/
def SecureClient.Verify (o : Oracle) (s : SecureClient) :
    (Option GroundTruth × Option String) × SecureClient :=
  match o.fetchLatestDigest s.repo with
  | .error e => ((none, some ("failed to fetch latest release: " ++ e)), s)
  | .ok digest =>
    match o.fetchAttestationBundle s.repo digest with
    | .error e => ((none, some ("failed to fetch attestation bundle: " ++ e)), s)
    | .ok sigstoreBundle =>
      match o.fetchTrustRoot with
      | .error e => ((none, some ("failed to fetch trust root: " ++ e)), s)
      | .ok trustRootJSON =>
        match o.verifyAttestation trustRootJSON sigstoreBundle digest s.repo with
        | .error e => ((none, some ("failed to verify attested measurements: " ++ e)), s)
        | .ok codeMeasurements =>
          match o.attestationFetch s.enclave with
          | .error e => ((none, some ("failed to fetch enclave measurements: " ++ e)), s)
          | .ok enclaveAttestation =>
            match o.attestationVerify enclaveAttestation with
            | .error e => ((none, some ("failed to verify enclave measurements: " ++ e)), s)
            | .ok verification =>
              match o.measurementsEquals codeMeasurements verification.measurement with
              | some e => ((s.groundTruth, some e), s)
              | none =>
                let gt : GroundTruth :=
                  { publicKeyFP := verification.publicKeyFP
                    digest := digest
                    measurement := o.measurementsFingerprint codeMeasurements }
                ((some gt, none), { s with groundTruth := some gt })

/-- C5: whenever `Verify` fails at any stage, the cached ground truth — in
fact the whole client state — is left exactly as it was; the cache is
overwritten only when every stage succeeds, and then it holds exactly the
newly constructed `GroundTruth` that `Verify` returns. -/
theorem C5_verify_failure_preserves_cache (o : Oracle) (s : SecureClient) :
    ((SecureClient.Verify o s).1.2.isSome → (SecureClient.Verify o s).2 = s)
    ∧ ((SecureClient.Verify o s).1.2 = none →
        (SecureClient.Verify o s).1.1.isSome
        ∧ (SecureClient.Verify o s).2
            = { enclave := s.enclave, repo := s.repo,
                groundTruth := (SecureClient.Verify o s).1.1 }) := by
  unfold SecureClient.Verify
  repeat' split
  all_goals simp_all

/-- An oracle for which every verification stage succeeds. -/
def okOracle : Oracle :=
  { fetchLatestDigest := fun _ => .ok "digest-1"
    fetchAttestationBundle := fun _ _ => .ok "bundle-1"
    fetchTrustRoot := .ok "trust-root-1"
    verifyAttestation := fun _ _ _ _ => .ok "code-measurements-1"
    attestationFetch := fun _ => .ok "enclave-attestation-1"
    attestationVerify := fun _ => .ok { publicKeyFP := "fp-1", measurement := "m-1" }
    measurementsEquals := fun _ _ => none
    measurementsFingerprint := fun _ => "m-1" }

/-- An oracle whose release lookup fails. -/
def failOracle : Oracle :=
  { okOracle with fetchLatestDigest := fun _ => .error "HTTP 404" }

/-- A client that already holds a cached ground truth. -/
def cachedClient : SecureClient :=
  { enclave := "inference.tinfoil.sh"
    repo := "tinfoilsh/confidential-inference-proxy"
    groundTruth := some { publicKeyFP := "fp-0", digest := "digest-0", measurement := "m-0" } }

/-- A client with no cached ground truth. -/
def freshClient : SecureClient :=
  { enclave := "inference.tinfoil.sh"
    repo := "tinfoilsh/confidential-inference-proxy"
    groundTruth := none }

theorem C5_verify_failure_preserves_cache_witness :
    (SecureClient.Verify failOracle cachedClient).2 = cachedClient
    ∧ ((SecureClient.Verify okOracle cachedClient).1.1.isSome
        ∧ (SecureClient.Verify okOracle cachedClient).2
            = { enclave := cachedClient.enclave, repo := cachedClient.repo,
                groundTruth := (SecureClient.Verify okOracle cachedClient).1.1 }) := by
  constructor
  · exact (C5_verify_failure_preserves_cache failOracle cachedClient).1 rfl
  · exact (C5_verify_failure_preserves_cache okOracle cachedClient).2 rfl

/-- The `TLSBoundRoundTripper` pinned transport as configured by
`SecureClient.HTTPClient` (client.go line 96): it carries the expected
public-key fingerprint from the ground truth. -/
structure TLSBoundRoundTripper where
  expectedPublicKey : String
deriving DecidableEq, Inhabited

/-- The `http.Client` value returned by `SecureClient.HTTPClient`: its only
configured field is the pinned transport. -/
structure HTTPClientValue where
  transport : TLSBoundRoundTripper
deriving DecidableEq, Inhabited

/-- The construction of `http.Client` with
`TLSBoundRoundTripper{ExpectedPublicKey: s.groundTruth.PublicKeyFP}`
(client.go lines 95-97); dereferencing a nil ground truth would be a Go
runtime panic, embedded as an error (proved unreachable below). -/
def clientFromGroundTruth : Option GroundTruth → Except String HTTPClientValue
  | some gt => .ok { transport := { expectedPublicKey := gt.publicKeyFP } }
  | none => .error "runtime error: invalid memory address or nil pointer dereference"

/-- `SecureClient.HTTPClient` (client.go lines 87-98): when no ground truth
is cached, runs `Verify` first and propagates its failure with the
`failed to verify enclave` prefix; then returns the HTTP client bound to
the (possibly freshly) cached fingerprint. -/
def SecureClient.HTTPClient (o : Oracle) (s : SecureClient) :
    Except String HTTPClientValue × SecureClient :=
  match s.groundTruth with
  | none =>
    match SecureClient.Verify o s with
    | ((_, some e), s1) => (.error ("failed to verify enclave: " ++ e), s1)
    | ((_, none), s1) => (clientFromGroundTruth s1.groundTruth, s1)
  | some _ => (clientFromGroundTruth s.groundTruth, s)

/-- Every run of `Verify` either fails leaving the client unchanged, or
succeeds and stores exactly the returned fresh ground truth. -/
theorem verify_outcomes (o : Oracle) (s : SecureClient) :
    ((SecureClient.Verify o s).1.2.isSome ∧ (SecureClient.Verify o s).2 = s)
    ∨ (∃ gt, SecureClient.Verify o s
          = ((some gt, none), { s with groundTruth := some gt })) := by
  unfold SecureClient.Verify
  repeat' split
  all_goals simp_all

/-- With a cached ground truth, `HTTPClient` is oracle-independent: it
returns the pinned client and leaves the state unchanged. -/
theorem httpclient_cached (o : Oracle) (s : SecureClient) (gt : GroundTruth)
    (h : s.groundTruth = some gt) :
    SecureClient.HTTPClient o s
      = (.ok { transport := { expectedPublicKey := gt.publicKeyFP } }, s) := by
  simp [SecureClient.HTTPClient, h, clientFromGroundTruth]

/-- A successful `HTTPClient` call always leaves a cached ground truth whose
fingerprint is the one pinned in the returned client. -/
theorem httpclient_ok_inv (o : Oracle) (s : SecureClient) (hc : HTTPClientValue)
    (s1 : SecureClient)
    (h : SecureClient.HTTPClient o s = (.ok hc, s1)) :
    ∃ gt, s1.groundTruth = some gt
      ∧ hc = { transport := { expectedPublicKey := gt.publicKeyFP } } := by
  cases hgt : s.groundTruth with
  | some gt =>
    rw [httpclient_cached o s gt hgt] at h
    injection h with h1 h2
    subst h2
    injection h1 with h1
    subst h1
    exact ⟨gt, hgt, rfl⟩
  | none =>
    rcases verify_outcomes o s with ⟨hsome, _⟩ | ⟨gt, hv⟩
    · obtain ⟨e, he⟩ := Option.isSome_iff_exists.mp hsome
      rcases hv : SecureClient.Verify o s with ⟨⟨r, err⟩, s2⟩
      rw [hv] at he
      simp at he
      subst he
      simp [SecureClient.HTTPClient, hgt, hv] at h
    · simp [SecureClient.HTTPClient, hgt, hv, clientFromGroundTruth] at h
      refine ⟨gt, ?_, ?_⟩
      · rw [← h.2]
      · exact h.1.symm

/-- C6: `HTTPClient` runs the implicit `Verify` exactly when no ground truth
is cached. With a cached ground truth the result is the same for every
oracle — the client pinned to the cached fingerprint, state untouched, no
trust-oracle round trip. With no cache, a `Verify` failure is returned with
the `failed to verify enclave` prefix, and a `Verify` success yields the
client pinned to the newly cached fingerprint. After any successful
`HTTPClient` call, every subsequent call returns the same pinned client
under any oracle and changes nothing, so repeated calls after one
successful verification trigger no additional verification. -/
theorem C6_httpclient_verifies_iff_uncached (o : Oracle) (s : SecureClient) :
    (∀ gt, s.groundTruth = some gt →
        SecureClient.HTTPClient o s
          = (.ok { transport := { expectedPublicKey := gt.publicKeyFP } }, s))
    ∧ (s.groundTruth = none →
        ((∀ e, (SecureClient.Verify o s).1.2 = some e →
            SecureClient.HTTPClient o s
              = (.error ("failed to verify enclave: " ++ e),
                  (SecureClient.Verify o s).2))
          ∧ ((SecureClient.Verify o s).1.2 = none →
              ∃ gt, (SecureClient.Verify o s).2.groundTruth = some gt
                ∧ SecureClient.HTTPClient o s
                    = (.ok { transport := { expectedPublicKey := gt.publicKeyFP } },
                        (SecureClient.Verify o s).2))))
    ∧ (∀ hc s1, SecureClient.HTTPClient o s = (.ok hc, s1) →
        ∀ o2, SecureClient.HTTPClient o2 s1 = (.ok hc, s1)) := by
  refine ⟨?_, ?_, ?_⟩
  · intro gt h
    exact httpclient_cached o s gt h
  · intro h
    constructor
    · intro e he
      rcases hv : SecureClient.Verify o s with ⟨⟨r, err⟩, s2⟩
      rw [hv] at he
      simp at he
      subst he
      simp [SecureClient.HTTPClient, h, hv]
    · intro hnone
      rcases verify_outcomes o s with ⟨hsome, _⟩ | ⟨gt, hv⟩
      · rw [hnone] at hsome
        simp at hsome
      · refine ⟨gt, ?_, ?_⟩
        · rw [hv]
        · simp [SecureClient.HTTPClient, h, hv, clientFromGroundTruth]
  · intro hc s1 hcall o2
    obtain ⟨gt, hgt, hhc⟩ := httpclient_ok_inv o s hc s1 hcall
    rw [hhc]
    exact httpclient_cached o2 s1 gt hgt

theorem C6_httpclient_verifies_iff_uncached_witness :
    SecureClient.HTTPClient okOracle cachedClient
      = (.ok { transport := { expectedPublicKey := "fp-0" } }, cachedClient)
    ∧ SecureClient.HTTPClient failOracle freshClient
      = (.error "failed to verify enclave: failed to fetch latest release: HTTP 404",
          (SecureClient.Verify failOracle freshClient).2)
    ∧ SecureClient.HTTPClient okOracle
        (SecureClient.HTTPClient okOracle freshClient).2
      = (.ok { transport := { expectedPublicKey := "fp-1" } },
          (SecureClient.HTTPClient okOracle freshClient).2) := by
  refine ⟨?_, ?_, ?_⟩
  · exact (C6_httpclient_verifies_iff_uncached okOracle cachedClient).1
      { publicKeyFP := "fp-0", digest := "digest-0", measurement := "m-0" } rfl
  · exact ((C6_httpclient_verifies_iff_uncached failOracle freshClient).2.1 rfl).1
      "failed to fetch latest release: HTTP 404" rfl
  · exact (C6_httpclient_verifies_iff_uncached okOracle freshClient).2.2
      { transport := { expectedPublicKey := "fp-1" } }
      (SecureClient.HTTPClient okOracle freshClient).2 rfl okOracle

/-- The URL-defaulting step of `makeRequest` (client.go lines 106-110): when
the request URL has no host, the scheme is set to https and the host to the
client's enclave; otherwise the request is left untouched. -/
def defaultRequestURL (enclave : String) (req : Request) : Request :=
  if req.url.host = "" then
    { req with url := { req.url with scheme := "https", host := enclave } }
  else
    req

/-- `SecureClient.makeRequest` (client.go lines 100-117): obtains the pinned
HTTP client (verifying first if needed), fills in the enclave host and the
https scheme for host-less URLs, performs the request through the network
oracle `net`, and converts the raw response. -/
def SecureClient.makeRequest (o : Oracle)
    (net : HTTPClientValue → Request → Except String HTTPRawResponse)
    (s : SecureClient) (req : Request) : Except String Response × SecureClient :=
  match SecureClient.HTTPClient o s with
  | (.error e, s1) => (.error e, s1)
  | (.ok httpClient, s1) =>
    match net httpClient (defaultRequestURL s.enclave req) with
    | .error e => (.error e, s1)
    | .ok resp => (toResponse resp, s1)

/-- C8: the request actually handed to the transport by `makeRequest` is the
URL-defaulted one: a request whose URL has an empty host is sent with the
scheme forced to https and the host set to the client's enclave (all other
fields unchanged), while a request whose URL already has a host is passed
through completely unmodified. -/
theorem C8_relative_url_defaulting (o : Oracle)
    (net : HTTPClientValue → Request → Except String HTTPRawResponse)
    (s : SecureClient) (req : Request) :
    (∀ hc s1, SecureClient.HTTPClient o s = (.ok hc, s1) →
        SecureClient.makeRequest o net s req
          = (match net hc (defaultRequestURL s.enclave req) with
              | .error e => (.error e, s1)
              | .ok resp => (toResponse resp, s1)))
    ∧ (req.url.host = "" →
        defaultRequestURL s.enclave req
          = { method := req.method
              url := { scheme := "https", host := s.enclave, path := req.url.path }
              headers := req.headers
              body := req.body })
    ∧ (req.url.host ≠ "" → defaultRequestURL s.enclave req = req) := by
  refine ⟨?_, ?_, ?_⟩
  · intro hc s1 h
    simp [SecureClient.makeRequest, h]
  · intro h
    simp [defaultRequestURL, h]
  · intro h
    simp [defaultRequestURL, h]

/-- A network oracle that answers every request with the same successful
response. -/
def okNet : HTTPClientValue → Request → Except String HTTPRawResponse :=
  fun _ _ => .ok rvOkResponse

/-- A request with a relative (host-less) URL. -/
def relativeReq : Request :=
  { method := "POST"
    url := { scheme := "", host := "", path := "/v1/chat/completions" }
    headers := [("Content-Type", "application/json")]
    body := [123, 125] }

/-- A request with an absolute URL. -/
def absoluteReq : Request :=
  { method := "GET"
    url := { scheme := "http", host := "example.com", path := "/status" }
    headers := []
    body := [] }

theorem C8_relative_url_defaulting_witness :
    SecureClient.makeRequest okOracle okNet cachedClient relativeReq
      = (toResponse rvOkResponse, cachedClient)
    ∧ defaultRequestURL cachedClient.enclave relativeReq
      = { method := relativeReq.method
          url := { scheme := "https", host := cachedClient.enclave,
                   path := relativeReq.url.path }
          headers := relativeReq.headers
          body := relativeReq.body }
    ∧ defaultRequestURL cachedClient.enclave absoluteReq = absoluteReq := by
  refine ⟨?_, ?_, ?_⟩
  · exact (C8_relative_url_defaulting okOracle okNet cachedClient relativeReq).1
      { transport := { expectedPublicKey := "fp-0" } } cachedClient
      (httpclient_cached okOracle cachedClient
        { publicKeyFP := "fp-0", digest := "digest-0", measurement := "m-0" } rfl)
  · exact (C8_relative_url_defaulting okOracle okNet cachedClient relativeReq).2.1 rfl
  · exact (C8_relative_url_defaulting okOracle okNet cachedClient absoluteReq).2.2
      (by decide)

/-- `pendingRequest` (ffi.go lines 32-34). -/
structure PendingRequest where
  req : Request

/-- `requestStore` (ffi.go lines 37-40): the map from request IDs to pending
requests, modelled as a function with Go-map semantics (absent keys map to
`none`). -/
structure RequestStore where
  requests : Nat → Option PendingRequest

/-- `requestStore.get` (ffi.go lines 60-68). -/
def RequestStore.get (rs : RequestStore) (requestID : Nat) : Option Request :=
  match rs.requests requestID with
  | some pr => some pr.req
  | none => none

/-- `requestStore.add` (ffi.go lines 50-57): the fresh ID comes from
`time.Now().UnixNano()`, supplied here as the `now` oracle argument. -/
def RequestStore.add (rs : RequestStore) (now : Nat) (req : Request) :
    Nat × RequestStore :=
  (now, ⟨fun i => if i = now then some ⟨req⟩ else rs.requests i⟩)

/-- `requestStore.remove` (ffi.go lines 71-76). -/
def RequestStore.remove (rs : RequestStore) (requestID : Nat) : RequestStore :=
  ⟨fun i => if i = requestID then none else rs.requests i⟩

/-- `req.Header.Set(key, value)`: replaces any existing values for the key. -/
def headerSet (headers : List (String × String)) (key value : String) :
    List (String × String) :=
  (key, value) :: headers.filter (fun kv => kv.1 ≠ key)

/-- `SecureClient.AddHeader` (ffi.go lines 102-110): looks the pending
request up in the global store, failing with `request not found` when the ID
is absent; otherwise sets the header on the stored request (the Go code
mutates the request in place through the stored pointer, embedded here as
updating the stored value). -/
def SecureClient.AddHeader (store : RequestStore) (requestID : Nat)
    (key value : String) : Except String RequestStore :=
  match RequestStore.get store requestID with
  | none => .error "request not found"
  | some req =>
    .ok ⟨fun i => if i = requestID
          then some ⟨{ req with headers := headerSet req.headers key value }⟩
          else store.requests i⟩

/-- `SecureClient.ExecuteRequest` (ffi.go lines 113-123): looks the pending
request up, failing with `request not found` when the ID is absent;
otherwise runs it through `makeRequest` and removes it from the store
(`defer globalRequestStore.remove(requestID)`) whether the execution
succeeded or failed. -/
def SecureClient.ExecuteRequest (o : Oracle)
    (net : HTTPClientValue → Request → Except String HTTPRawResponse)
    (s : SecureClient) (store : RequestStore) (requestID : Nat) :
    Except String Response × SecureClient × RequestStore :=
  match RequestStore.get store requestID with
  | none => (.error "request not found", s, store)
  | some req =>
    let result := SecureClient.makeRequest o net s req
    (result.1, result.2, RequestStore.remove store requestID)

/-- C10: after `ExecuteRequest` on a stored ID, the ID is gone from the
store regardless of whether the execution succeeded, so a second
`ExecuteRequest` or a later `AddHeader` with the same ID fails with
`request not found` (with no request sent and no state or store change);
`AddHeader` and `ExecuteRequest` on an ID that was never issued fail the
same way instead of panicking. -/
theorem C10_execute_consumes_request (o : Oracle)
    (net : HTTPClientValue → Request → Except String HTTPRawResponse)
    (s : SecureClient) (store : RequestStore) (rid : Nat) (req : Request)
    (key value : String)
    (h : RequestStore.get store rid = some req) :
    RequestStore.get (SecureClient.ExecuteRequest o net s store rid).2.2 rid = none
    ∧ (∀ o2 net2 s2,
        SecureClient.ExecuteRequest o2 net2 s2
            (SecureClient.ExecuteRequest o net s store rid).2.2 rid
          = (.error "request not found", s2,
              (SecureClient.ExecuteRequest o net s store rid).2.2))
    ∧ SecureClient.AddHeader (SecureClient.ExecuteRequest o net s store rid).2.2
        rid key value = .error "request not found"
    ∧ (∀ store2 : RequestStore, RequestStore.get store2 rid = none →
        (∀ o2 net2 s2, SecureClient.ExecuteRequest o2 net2 s2 store2 rid
            = (.error "request not found", s2, store2))
        ∧ SecureClient.AddHeader store2 rid key value = .error "request not found") := by
  have hrm : (SecureClient.ExecuteRequest o net s store rid).2.2
      = RequestStore.remove store rid := by
    simp [SecureClient.ExecuteRequest, h]
  have hget : RequestStore.get (RequestStore.remove store rid) rid = none := by
    simp [RequestStore.get, RequestStore.remove]
  refine ⟨?_, ?_, ?_, ?_⟩
  · rw [hrm]
    exact hget
  · intro o2 net2 s2
    rw [hrm]
    simp [SecureClient.ExecuteRequest, hget]
  · rw [hrm]
    simp [SecureClient.AddHeader, hget]
  · intro store2 h2
    exact ⟨fun o2 net2 s2 => by simp [SecureClient.ExecuteRequest, h2],
      by simp [SecureClient.AddHeader, h2]⟩

/-- A concrete store holding one pending request under ID 42. -/
def sampleStore : RequestStore :=
  ⟨fun i => if i = 42 then some ⟨relativeReq⟩ else none⟩

/-- A concrete store holding one pending request under ID 7. -/
def sampleStore7 : RequestStore :=
  ⟨fun i => if i = 7 then some ⟨absoluteReq⟩ else none⟩

theorem C10_execute_consumes_request_witness :
    RequestStore.get
        (SecureClient.ExecuteRequest okOracle okNet cachedClient sampleStore 42).2.2 42
      = none
    ∧ SecureClient.ExecuteRequest okOracle okNet cachedClient
        (SecureClient.ExecuteRequest okOracle okNet cachedClient sampleStore 42).2.2 42
      = (.error "request not found", cachedClient,
          (SecureClient.ExecuteRequest okOracle okNet cachedClient sampleStore 42).2.2)
    ∧ SecureClient.AddHeader
        (SecureClient.ExecuteRequest okOracle okNet cachedClient sampleStore 42).2.2
        42 "Authorization" "Bearer t" = .error "request not found"
    ∧ SecureClient.AddHeader sampleStore 7 "Authorization" "Bearer t"
      = .error "request not found" := by
  refine ⟨?_, ?_, ?_, ?_⟩
  · exact (C10_execute_consumes_request okOracle okNet cachedClient sampleStore 42
      relativeReq "Authorization" "Bearer t" rfl).1
  · exact (C10_execute_consumes_request okOracle okNet cachedClient sampleStore 42
      relativeReq "Authorization" "Bearer t" rfl).2.1 okOracle okNet cachedClient
  · exact (C10_execute_consumes_request okOracle okNet cachedClient sampleStore 42
      relativeReq "Authorization" "Bearer t" rfl).2.2.1
  · exact ((C10_execute_consumes_request okOracle okNet cachedClient sampleStore7 7
      absoluteReq "Authorization" "Bearer t" rfl).2.2.2 sampleStore (by decide)).2

/-- `Enclave` (src/unnamed/part_010, lines 9-12). -/
structure Enclave where
  host : String
  repo : String
deriving DecidableEq, Inhabited

/-- The observable identity of a pooled `*Client` as built by
`NewClientWithParams(enclave.Host, enclave.Repo, ...)`: its enclave and
repo. -/
structure LBClient where
  enclave : String
  repo : String
deriving DecidableEq, Inhabited

/-- `LoadBalancer` (src/unnamed/part_010, lines 14-17): the client slice and
the Go `uint64` rotation counter, carried as a natural number reduced
modulo `2 ^ 64` at each update. -/
structure LoadBalancer where
  clients : List LBClient
  counter : Nat
deriving DecidableEq, Inhabited

/-- The modulus of Go `uint64` arithmetic. -/
def uint64Mod : Nat := 2 ^ 64

/-- The client-construction loop of `NewLoadBalancer` (src/unnamed/part_010,
lines 20-31): one client per enclave, in order, failing on the first
construction error. `mkClient` is the oracle modelling
`NewClientWithParams`. -/
def buildClients (mkClient : Enclave → Except String LBClient) :
    List Enclave → Except String (List LBClient)
  | [] => .ok []
  | e :: es =>
    match mkClient e with
    | .error err => .error err
    | .ok c =>
      match buildClients mkClient es with
      | .error err => .error err
      | .ok cs => .ok (c :: cs)

/-- `NewLoadBalancer` (src/unnamed/part_010, lines 19-33): builds the client
slice and returns the balancer; the counter starts at its zero value. -/
def NewLoadBalancer (mkClient : Enclave → Except String LBClient)
    (enclaves : List Enclave) : Except String LoadBalancer :=
  match buildClients mkClient enclaves with
  | .error err => .error err
  | .ok cs => .ok { clients := cs, counter := 0 }

/-- `LoadBalancer.NextClient` (src/unnamed/part_010, lines 36-40):
`count := atomic.AddUint64(&lb.counter, 1)` then
`index := (count - 1) % uint64(len(lb.clients))`. Go `uint64` subtraction
`count - 1` is `(count + 2^64 - 1) % 2^64`, and `% 0` is a Go runtime panic
(integer division by zero), embedded as `none`. -/
def LoadBalancer.NextClient (lb : LoadBalancer) : Option (LBClient × LoadBalancer) :=
  let count := (lb.counter + 1) % uint64Mod
  if lb.clients.length = 0 then
    none
  else
    let index := ((count + (uint64Mod - 1)) % uint64Mod) % lb.clients.length
    some (lb.clients.getD index default, { lb with counter := count })

/-- The balancer state after `m` successive `NextClient` calls. -/
def iterateCalls (lb : LoadBalancer) : Nat → LoadBalancer
  | 0 => lb
  | m + 1 =>
    match LoadBalancer.NextClient (iterateCalls lb m) with
    | some (_, lb2) => lb2
    | none => iterateCalls lb m

/-- The client returned by call number `i` (counting from 1) in a sequence
of successive `NextClient` calls. -/
def callResult (lb : LoadBalancer) (i : Nat) : Option LBClient :=
  (LoadBalancer.NextClient (iterateCalls lb (i - 1))).map Prod.fst

/-- The results of the first `m` successive `NextClient` calls, in order. -/
def resultsList (lb : LoadBalancer) (m : Nat) : List (Option LBClient) :=
  (List.range m).map (fun i => callResult lb (i + 1))

theorem nextClient_nonempty (lb : LoadBalancer) (h : lb.clients ≠ []) :
    LoadBalancer.NextClient lb
      = some (lb.clients.getD
            ((((lb.counter + 1) % uint64Mod + (uint64Mod - 1)) % uint64Mod)
              % lb.clients.length) default,
          { clients := lb.clients, counter := (lb.counter + 1) % uint64Mod }) := by
  have hlen : lb.clients.length ≠ 0 := by
    simpa [List.length_eq_zero] using h
  simp [LoadBalancer.NextClient, hlen]

theorem iterate_state (lb : LoadBalancer) (h : lb.clients ≠ [])
    (hcnt : lb.counter < uint64Mod) (m : Nat) :
    iterateCalls lb m
      = { clients := lb.clients, counter := (lb.counter + m) % uint64Mod } := by
  induction m with
  | zero =>
    simp [iterateCalls, Nat.mod_eq_of_lt hcnt]
  | succ m ih =>
    have hstep : ∀ a : Nat, (a % uint64Mod + 1) % uint64Mod = (a + 1) % uint64Mod := by
      intro a
      conv_rhs => rw [Nat.add_mod]
      rw [Nat.mod_eq_of_lt (show (1 : Nat) < uint64Mod by norm_num [uint64Mod])]
    have hne : ({ clients := lb.clients, counter := (lb.counter + m) % uint64Mod }
        : LoadBalancer).clients ≠ [] := h
    simp only [iterateCalls, ih, nextClient_nonempty _ hne]
    rw [hstep (lb.counter + m), ← Nat.add_assoc]

theorem index_arith (i : Nat) (h1 : 1 ≤ i) (h2 : i ≤ uint64Mod) :
    (((i - 1) % uint64Mod + 1) % uint64Mod + (uint64Mod - 1)) % uint64Mod = i - 1 := by
  have hM : uint64Mod = 18446744073709551616 := by norm_num [uint64Mod]
  rw [hM] at h2 ⊢
  omega

/-- Call number `i` of a zero-counter balancer over a non-empty pool
returns the client at index `(i - 1) % N`, as long as the `uint64` counter
has not wrapped (`i ≤ 2 ^ 64`). -/
theorem callResult_formula (lb : LoadBalancer) (h : lb.clients ≠ [])
    (hcnt : lb.counter = 0) (i : Nat) (h1 : 1 ≤ i) (h2 : i ≤ uint64Mod) :
    callResult lb i = some (lb.clients.getD ((i - 1) % lb.clients.length) default) := by
  have hcntlt : lb.counter < uint64Mod := by
    rw [hcnt]
    norm_num [uint64Mod]
  have hne : ({ clients := lb.clients, counter := (lb.counter + (i - 1)) % uint64Mod }
      : LoadBalancer).clients ≠ [] := h
  unfold callResult
  rw [iterate_state lb h hcntlt (i - 1), nextClient_nonempty _ hne]
  simp only [Option.map_some', hcnt, Nat.zero_add]
  rw [index_arith i h1 h2]

theorem range_getD_map (l : List LBClient) :
    (List.range l.length).map (fun r => some (l.getD r default)) = l.map some := by
  induction l with
  | nil => simp
  | cons x xs ih =>
    rw [List.length_cons, List.range_succ_eq_map]
    simp only [List.map_cons, List.map_map, List.getD_cons_zero]
    refine congrArg (some x :: ·) ?_
    rw [← ih]
    refine List.map_congr_left ?_
    intro r _
    simp [List.getD_cons_succ]

/-- The first `k * N` calls of a zero-counter balancer return the pool in
construction order, repeated cyclically `k` times, provided the counter
does not wrap. -/
theorem resultsList_rotation (lb : LoadBalancer) (h : lb.clients ≠ [])
    (hcnt : lb.counter = 0) (k : Nat) (hk : k * lb.clients.length ≤ uint64Mod) :
    resultsList lb (k * lb.clients.length)
      = (List.replicate k (lb.clients.map some)).flatten := by
  induction k with
  | zero => simp [resultsList]
  | succ k ih =>
    have hk2 : k * lb.clients.length ≤ uint64Mod := by
      refine le_trans ?_ hk
      exact Nat.mul_le_mul_right _ (Nat.le_succ k)
    have hN : 0 < lb.clients.length := List.length_pos.mpr h
    have hsplit : (k + 1) * lb.clients.length
        = k * lb.clients.length + lb.clients.length := by ring
    rw [hsplit]
    simp only [resultsList] at ih ⊢
    rw [List.range_add, List.map_append, ih hk2, List.map_map]
    have hblock : (List.range lb.clients.length).map
          ((fun i => callResult lb (i + 1)) ∘ (fun x => k * lb.clients.length + x))
        = lb.clients.map some := by
      rw [← range_getD_map lb.clients]
      refine List.map_congr_left ?_
      intro r hr
      have hrN : r < lb.clients.length := List.mem_range.mp hr
      have hle : k * lb.clients.length + r + 1 ≤ uint64Mod := by
        have : k * lb.clients.length + r + 1 ≤ k * lb.clients.length + lb.clients.length := by
          omega
        rw [← hsplit] at this
        exact le_trans this hk
      have hform := callResult_formula lb h hcnt (k * lb.clients.length + r + 1)
        (by omega) hle
      simp only [Function.comp]
      rw [hform]
      have hidx : (k * lb.clients.length + r + 1 - 1) % lb.clients.length = r := by
        have : (k * lb.clients.length + r + 1 - 1) = k * lb.clients.length + r := by omega
        rw [this, Nat.mul_comm k lb.clients.length, Nat.mul_add_mod]
        exact Nat.mod_eq_of_lt hrN
      rw [hidx]
    rw [hblock, List.replicate_succ', List.flatten_append]
    simp

/-- C7 (amended): for a `LoadBalancer` over `N ≥ 1` clients with its counter
at its initial value 0, as long as the `uint64` counter does not wrap
(`k * N ≤ 2 ^ 64`, respectively `i ≤ 2 ^ 64`): the first `k * N` successive
`NextClient` calls return the pool in construction order repeated cyclically
`k` times — hence each client exactly `k` times; call number `i` (counting
from 1) returns the client at index `(i - 1) % N`; and each call updates the
counter by a single increment modulo `2 ^ 64` (the sequential rendering of
the atomic `AddUint64`). -/
theorem C7_round_robin_rotation (lb : LoadBalancer) (N k : Nat)
    (hN : lb.clients.length = N) (hpos : 0 < N) (hcnt : lb.counter = 0)
    (hk : k * N ≤ uint64Mod) :
    resultsList lb (k * N) = (List.replicate k (lb.clients.map some)).flatten
    ∧ (∀ i, 1 ≤ i → i ≤ uint64Mod →
        callResult lb i = some (lb.clients.getD ((i - 1) % N) default))
    ∧ (∀ lb2 : LoadBalancer, lb2.clients ≠ [] →
        ∃ c, LoadBalancer.NextClient lb2
          = some (c, { clients := lb2.clients,
                       counter := (lb2.counter + 1) % uint64Mod })) := by
  have h : lb.clients ≠ [] := by
    intro hnil
    rw [hnil] at hN
    simp at hN
    omega
  subst hN
  refine ⟨resultsList_rotation lb h hcnt k hk, ?_, ?_⟩
  · intro i h1 h2
    exact callResult_formula lb h hcnt i h1 h2
  · intro lb2 h2
    exact ⟨_, nextClient_nonempty lb2 h2⟩

/-- Distinct concrete clients for the load-balancer witnesses. -/
def lbClientA : LBClient := { enclave := "a.tinfoil.sh", repo := "org/model-a" }

/-- Second concrete client. -/
def lbClientB : LBClient := { enclave := "b.tinfoil.sh", repo := "org/model-b" }

/-- Third concrete client. -/
def lbClientC : LBClient := { enclave := "c.tinfoil.sh", repo := "org/model-c" }

/-- A pool of two clients with the counter at its initial value. -/
def lbTwo : LoadBalancer := { clients := [lbClientA, lbClientB], counter := 0 }

/-- A pool of three clients with the counter at its initial value. -/
def lbThree : LoadBalancer := { clients := [lbClientA, lbClientB, lbClientC], counter := 0 }

theorem C7_round_robin_rotation_witness :
    resultsList lbTwo 4
      = (List.replicate 2 (lbTwo.clients.map some)).flatten
    ∧ callResult lbTwo 3 = some (lbTwo.clients.getD ((3 - 1) % 2) default) := by
  constructor
  · have := (C7_round_robin_rotation lbTwo 2 2 rfl (by norm_num) rfl
      (by norm_num [uint64Mod])).1
    simpa using this
  · exact (C7_round_robin_rotation lbTwo 2 2 rfl (by norm_num) rfl
      (by norm_num [uint64Mod])).2.1 3 (by norm_num) (by norm_num [uint64Mod])

/-- C7 counterexample: over a pool of 3 clients with the counter at its
initial value, call number `2 ^ 64 + 1` returns the client at index 0, while
the claimed formula `(i - 1) % N` gives index 1 — the `uint64` counter wraps
after `2 ^ 64` increments, so the claimed rotation order fails for
`k * N > 2 ^ 64` (here `N = 3` does not divide `2 ^ 64`). -/
theorem C7_counterexample :
    callResult lbThree (uint64Mod + 1) = some lbClientA
    ∧ (uint64Mod + 1 - 1) % 3 = 1
    ∧ lbThree.clients.getD 1 default = lbClientB
    ∧ lbClientA ≠ lbClientB := by
  refine ⟨?_, by norm_num [uint64Mod], by decide, by decide⟩
  have h : lbThree.clients ≠ [] := by decide
  have hcntlt : lbThree.counter < uint64Mod := by norm_num [lbThree, uint64Mod]
  unfold callResult
  rw [show uint64Mod + 1 - 1 = uint64Mod by omega]
  rw [iterate_state lbThree h hcntlt uint64Mod]
  decide

/-- C9: `NewLoadBalancer` on the empty enclave list succeeds and returns a
balancer with an empty pool, but the first `NextClient` call on that empty
pool is a modulo-by-zero runtime panic (embedded as `none`); on every
non-empty pool `NextClient` is safe (always returns a client). -/
theorem C9_empty_pool_modulo_zero (mkClient : Enclave → Except String LBClient) :
    NewLoadBalancer mkClient [] = .ok { clients := [], counter := 0 }
    ∧ LoadBalancer.NextClient { clients := [], counter := 0 } = none
    ∧ ∀ lb : LoadBalancer, lb.clients ≠ [] → (LoadBalancer.NextClient lb).isSome := by
  refine ⟨rfl, rfl, ?_⟩
  intro lb h
  rw [nextClient_nonempty lb h]
  rfl

theorem C9_empty_pool_modulo_zero_witness :
    NewLoadBalancer (fun e => .ok { enclave := e.host, repo := e.repo }) []
      = .ok { clients := [], counter := 0 }
    ∧ (LoadBalancer.NextClient lbTwo).isSome := by
  constructor
  · exact (C9_empty_pool_modulo_zero (fun e => .ok { enclave := e.host, repo := e.repo })).1
  · exact (C9_empty_pool_modulo_zero (fun e => .ok { enclave := e.host, repo := e.repo })).2.2
      lbTwo (by decide)

end Tinfoil
